/-
Verification of the state-estimation project (drone_estimator.py and
turtlebot Estimator.py) against its natural-language specification.

The Python code is shallowly embedded: state/input/measurement vectors
become functions `Fin n → ℝ`, numpy matrices become `Matrix (Fin m) (Fin n) ℝ`,
python floats become real numbers, and the replay loop becomes structural
recursion over a list of records.
-/
import Mathlib

open Matrix

/-! ## Vector-literal component lemmas

`![a, …]` applied at a numeric index, as rewrite rules usable by `simp` and
`norm_num`. -/

section VecLit

variable {α : Type} (a b c d e f : α)

@[simp] lemma vec2_zero : ![a, b] 0 = a := rfl
@[simp] lemma vec2_one : ![a, b] 1 = b := rfl
@[simp] lemma vec3_zero : ![a, b, c] 0 = a := rfl
@[simp] lemma vec3_one : ![a, b, c] 1 = b := rfl
@[simp] lemma vec3_two : ![a, b, c] 2 = c := rfl
@[simp] lemma vec5_zero : ![a, b, c, d, e] 0 = a := rfl
@[simp] lemma vec5_one : ![a, b, c, d, e] 1 = b := rfl
@[simp] lemma vec5_two : ![a, b, c, d, e] 2 = c := rfl
@[simp] lemma vec5_three : ![a, b, c, d, e] 3 = d := rfl
@[simp] lemma vec5_four : ![a, b, c, d, e] 4 = e := rfl
@[simp] lemma vec6_zero : ![a, b, c, d, e, f] 0 = a := rfl
@[simp] lemma vec6_one : ![a, b, c, d, e, f] 1 = b := rfl
@[simp] lemma vec6_two : ![a, b, c, d, e, f] 2 = c := rfl
@[simp] lemma vec6_three : ![a, b, c, d, e, f] 3 = d := rfl
@[simp] lemma vec6_four : ![a, b, c, d, e, f] 4 = e := rfl
@[simp] lemma vec6_five : ![a, b, c, d, e, f] 5 = f := rfl

@[simp] lemma vec2_mk0 (h : 0 < 2) : ![a, b] ⟨0, h⟩ = a := rfl
@[simp] lemma vec2_mk1 (h : 1 < 2) : ![a, b] ⟨1, h⟩ = b := rfl
@[simp] lemma vec3_mk0 (h : 0 < 3) : ![a, b, c] ⟨0, h⟩ = a := rfl
@[simp] lemma vec3_mk1 (h : 1 < 3) : ![a, b, c] ⟨1, h⟩ = b := rfl
@[simp] lemma vec3_mk2 (h : 2 < 3) : ![a, b, c] ⟨2, h⟩ = c := rfl
@[simp] lemma vec5_mk0 (h : 0 < 5) : ![a, b, c, d, e] ⟨0, h⟩ = a := rfl
@[simp] lemma vec5_mk1 (h : 1 < 5) : ![a, b, c, d, e] ⟨1, h⟩ = b := rfl
@[simp] lemma vec5_mk2 (h : 2 < 5) : ![a, b, c, d, e] ⟨2, h⟩ = c := rfl
@[simp] lemma vec5_mk3 (h : 3 < 5) : ![a, b, c, d, e] ⟨3, h⟩ = d := rfl
@[simp] lemma vec5_mk4 (h : 4 < 5) : ![a, b, c, d, e] ⟨4, h⟩ = e := rfl
@[simp] lemma vec6_mk0 (h : 0 < 6) : ![a, b, c, d, e, f] ⟨0, h⟩ = a := rfl
@[simp] lemma vec6_mk1 (h : 1 < 6) : ![a, b, c, d, e, f] ⟨1, h⟩ = b := rfl
@[simp] lemma vec6_mk2 (h : 2 < 6) : ![a, b, c, d, e, f] ⟨2, h⟩ = c := rfl
@[simp] lemma vec6_mk3 (h : 3 < 6) : ![a, b, c, d, e, f] ⟨3, h⟩ = d := rfl
@[simp] lemma vec6_mk4 (h : 4 < 6) : ![a, b, c, d, e, f] ⟨4, h⟩ = e := rfl
@[simp] lemma vec6_mk5 (h : 5 < 6) : ![a, b, c, d, e, f] ⟨5, h⟩ = f := rfl

end VecLit

/-! ## Drone estimator (`drone_proj3/drone_estimator.py`) -/

namespace Drone

/-- Gravitational acceleration, `self.gr = 9.81`. -/
noncomputable def gr : ℝ := 9.81

/-- Quadrotor mass, `self.m = 0.92`. -/
noncomputable def m : ℝ := 0.92

/-- Quadrotor moment of inertia, `self.J = 0.0023`. -/
noncomputable def J : ℝ := 0.0023

/-- Landmark coordinates, `self.landmark = (0, 5, 5)`. -/
noncomputable def landmark : ℝ × ℝ × ℝ := (0, 5, 5)

/-- `DeadReckoning.model(x, u)`: continuous-time derivative of the planar
quadrotor.  State layout `[x, z, phi, vx, vz, vphi]`, input `[u1, u2]`
(thrust, torque). -/
noncomputable def DRmodel (x : Fin 6 → ℝ) (u : Fin 2 → ℝ) : Fin 6 → ℝ :=
  ![x 3, x 4, x 5,
    -(u 0 / m) * Real.sin (x 2),
    (u 0 / m) * Real.cos (x 2) - gr,
    u 1 / J]

/-- The state appended by `DeadReckoning.update`: componentwise
`x_hat + model(x_hat, u) * dt` (forward Euler). -/
noncomputable def DRstep (dt : ℝ) (xh : Fin 6 → ℝ) (u : Fin 2 → ℝ) : Fin 6 → ℝ :=
  fun i => xh i + DRmodel xh u i * dt

/-- `DeadReckoning.update`: if the estimate history is nonempty, append the
forward-Euler step from the last estimate using the last received input;
otherwise do nothing. -/
noncomputable def DRupdate (dt : ℝ) (u : Fin 2 → ℝ) (x_hat : List (Fin 6 → ℝ)) :
    List (Fin 6 → ℝ) :=
  match x_hat.getLast? with
  | some xh => x_hat ++ [DRstep dt xh u]
  | none => x_hat

/-- One record of the replay data: `data[i]` split as
`time, x = data[1:7], u = data[7:9], y = data[9:12]` by `Estimator.run`. -/
structure Record where
  t : ℝ
  x : Fin 6 → ℝ
  u : Fin 2 → ℝ
  y : Fin 3 → ℝ

/-- The body of `Estimator.run` for the dead-reckoning estimator: for each
record, the state/input buffers grow and `update` is invoked, except that the
very first record initialises `x_hat` with the true state. -/
noncomputable def DRloop (dt : ℝ) : List Record → List (Fin 6 → ℝ) → List (Fin 6 → ℝ)
  | [], x_hat => x_hat
  | r :: rs, x_hat =>
      DRloop dt rs (if x_hat.isEmpty then x_hat ++ [r.x] else DRupdate dt r.u x_hat)

/-- `DeadReckoning().run()` on a list of records, starting from an empty
estimate history. -/
noncomputable def DRrun (dt : ℝ) (recs : List Record) : List (Fin 6 → ℝ) :=
  DRloop dt recs []

/-- The estimates produced after the initial one: each is the Euler step from
its predecessor with the input of the record being processed.  (Proof-support
characterisation of `DRloop`.) -/
noncomputable def drTail (dt : ℝ) (xh : Fin 6 → ℝ) : List Record → List (Fin 6 → ℝ)
  | [] => []
  | r :: rs => DRstep dt xh r.u :: drTail dt (DRstep dt xh r.u) rs

/-- `ExtendedKalmanFilter.f(x, u)`: same continuous-time quadrotor dynamics
(textually identical to `DeadReckoning.model` in the source). -/
noncomputable def f (x : Fin 6 → ℝ) (u : Fin 2 → ℝ) : Fin 6 → ℝ :=
  ![x 3, x 4, x 5,
    -(u 0 / m) * Real.sin (x 2),
    (u 0 / m) * Real.cos (x 2) - gr,
    u 1 / J]

/-- `ExtendedKalmanFilter.g(x, u)`: forward-Euler discretisation
`x + f(x, u) * dt`. -/
noncomputable def g (dt : ℝ) (x : Fin 6 → ℝ) (u : Fin 2 → ℝ) : Fin 6 → ℝ :=
  fun i => x i + f x u i * dt

/-- The distance expression used by both `ExtendedKalmanFilter.h` and
`ExtendedKalmanFilter.approx_C`:
`sqrt((landmark_x - x)**2 + (landmark_y - 0)**2 + (landmark_z - z)**2)`. -/
noncomputable def dist (x : Fin 6 → ℝ) : ℝ :=
  Real.sqrt ((landmark.1 - x 0) ^ 2 + (landmark.2.1 - 0) ^ 2 +
    (landmark.2.2 - x 1) ^ 2)

/-- `ExtendedKalmanFilter.h(x, y_obs)`: expected measurement
`[distance, bearing]` at state `x`. -/
noncomputable def h (x : Fin 6 → ℝ) : Fin 2 → ℝ :=
  ![dist x, x 2]

/-- The matrix `df_dx` built by `ExtendedKalmanFilter.approx_A`: zeros except
`[0,3] = [1,4] = [2,5] = 1`, `[3,2] = -(u1/m)·cos(phi)`,
`[4,2] = -(u1/m)·sin(phi)`. -/
noncomputable def dfdx (x : Fin 6 → ℝ) (u : Fin 2 → ℝ) : Matrix (Fin 6) (Fin 6) ℝ :=
  Matrix.of
    ![![0, 0, 0, 1, 0, 0],
      ![0, 0, 0, 0, 1, 0],
      ![0, 0, 0, 0, 0, 1],
      ![0, 0, -(u 0 / m) * Real.cos (x 2), 0, 0, 0],
      ![0, 0, -(u 0 / m) * Real.sin (x 2), 0, 0, 0],
      ![0, 0, 0, 0, 0, 0]]

/-- `ExtendedKalmanFilter.approx_A(x, u) = np.eye(6) + df_dx * dt`. -/
noncomputable def approx_A (dt : ℝ) (x : Fin 6 → ℝ) (u : Fin 2 → ℝ) :
    Matrix (Fin 6) (Fin 6) ℝ :=
  1 + dt • dfdx x u

/-- `ExtendedKalmanFilter.approx_C(x)`: zeros except
`[0,0] = (x - landmark_x)/distance`, `[0,1] = (z - landmark_z)/distance`,
`[1,2] = 1`. -/
noncomputable def approx_C (x : Fin 6 → ℝ) : Matrix (Fin 2) (Fin 6) ℝ :=
  Matrix.of
    ![![(x 0 - landmark.1) / dist x, (x 1 - landmark.2.2) / dist x, 0, 0, 0, 0],
      ![0, 0, 1, 0, 0, 0]]

end Drone

/-! ## Shared Kalman covariance recursion

Both Kalman variants compute, per step,
`P⁻ = A P Aᵀ + Q`, `K = P⁻ Cᵀ (C P⁻ Cᵀ + R)⁻¹`, `P = (I - K C) P⁻`. -/

namespace Kalman

/-- Predicted covariance `P_tp1_t = A @ P @ A.T + Q`. -/
noncomputable def predCov {n : ℕ} (A Q P : Matrix (Fin n) (Fin n) ℝ) :
    Matrix (Fin n) (Fin n) ℝ :=
  A * P * Aᵀ + Q

/-- Kalman gain `K = P⁻ @ C.T @ inv(C @ P⁻ @ C.T + R)`. -/
noncomputable def gain {n p : ℕ} (C : Matrix (Fin p) (Fin n) ℝ)
    (R : Matrix (Fin p) (Fin p) ℝ) (Pm : Matrix (Fin n) (Fin n) ℝ) :
    Matrix (Fin n) (Fin p) ℝ :=
  Pm * Cᵀ * (C * Pm * Cᵀ + R)⁻¹

/-- The covariance produced by one predict/update step:
`P = (I - K @ C) @ P⁻` with `P⁻ = A @ P @ A.T + Q`. -/
noncomputable def covStep {n p : ℕ} (A : Matrix (Fin n) (Fin n) ℝ)
    (C : Matrix (Fin p) (Fin n) ℝ) (Q : Matrix (Fin n) (Fin n) ℝ)
    (R : Matrix (Fin p) (Fin p) ℝ) (P : Matrix (Fin n) (Fin n) ℝ) :
    Matrix (Fin n) (Fin n) ℝ :=
  (1 - gain C R (predCov A Q P) * C) * predCov A Q P

/-- The covariances produced over a run: the Jacobians `(A, C)` may change
each step (they are recomputed at each operating point in the EKF), while `Q`
and `R` are construction-time constants.  The head of the list is the initial
covariance. -/
noncomputable def covRun {n p : ℕ} (Q : Matrix (Fin n) (Fin n) ℝ)
    (R : Matrix (Fin p) (Fin p) ℝ) (P : Matrix (Fin n) (Fin n) ℝ)
    (steps : List (Matrix (Fin n) (Fin n) ℝ × Matrix (Fin p) (Fin n) ℝ)) :
    List (Matrix (Fin n) (Fin n) ℝ) :=
  match steps with
  | [] => [P]
  | s :: ss => P :: covRun Q R (covStep s.1 s.2 Q R P) ss

end Kalman

/-! ## Turtlebot estimators (`turtlebot_proj3_pkg/src/Estimator.py`)

Buffers: `u`/`y` entries are 3-vectors `[timestamp, ·, ·]`, `x`/`x_hat`
entries are 6-vectors `[timestamp, phi, x, y, thl, thr]`. -/

namespace Turtlebot

/-- Half of the track width, `self.d = 0.08`. -/
noncomputable def d : ℝ := 0.08

/-- Wheel radius, `self.r = 0.033`. -/
noncomputable def r : ℝ := 0.033

/-- Fixed update period, `self.dt = 0.1`. -/
noncomputable def dt : ℝ := 0.1

/-- Frozen default bearing, `self.phid = np.pi / 4` (Kalman filter). -/
noncomputable def phid : ℝ := Real.pi / 4

/-- `v[1:]` for a 6-vector. -/
def tail5 (v : Fin 6 → ℝ) : Fin 5 → ℝ := fun i => v i.succ

/-- `v[2:]` for a 6-vector. -/
def tail4 (v : Fin 6 → ℝ) : Fin 4 → ℝ := fun i => v ⟨i.1 + 2, by omega⟩

/-- `v[1:]` for a 3-vector. -/
def tail2 (v : Fin 3 → ℝ) : Fin 2 → ℝ := fun i => v i.succ

/-- `OracleObserver.update`: append the newest ground-truth record,
unconditionally.  (If `x` is empty the source raises; that case is modelled
as a no-op and never reached in the claims.) -/
def oracleUpdate (x x_hat : List (Fin 6 → ℝ)) : List (Fin 6 → ℝ) :=
  match x.getLast? with
  | some xt => x_hat ++ [xt]
  | none => x_hat

/-- `DeadReckoning.model(x, u)`: differential-drive derivative of
`[phi, x, y, thl, thr]`; `x` is a full 6-vector (timestamp ignored), `u` a
3-vector (timestamp ignored). -/
noncomputable def DRmodel (x : Fin 6 → ℝ) (u : Fin 3 → ℝ) : Fin 5 → ℝ :=
  ![(u 2 - u 1) * r / (2 * d),
    (u 2 + u 1) * (r / 2) * Real.cos (x 1),
    (u 2 + u 1) * (r / 2) * Real.sin (x 1),
    u 1,
    u 2]

/-- The estimate appended by `DeadReckoning.update`: timestamp advanced by
`dt`, remaining components integrated by forward Euler. -/
noncomputable def DRstep (xh : Fin 6 → ℝ) (u : Fin 3 → ℝ) : Fin 6 → ℝ :=
  ![xh 0 + dt,
    xh 1 + DRmodel xh u 0 * dt,
    xh 2 + DRmodel xh u 1 * dt,
    xh 3 + DRmodel xh u 2 * dt,
    xh 4 + DRmodel xh u 3 * dt,
    xh 5 + DRmodel xh u 4 * dt]

/-- `DeadReckoning.update` on the current buffers.  The guard is
`len(x_hat) > 0 and x_hat[-1][0] < x[-1][0]`; when it holds, one Euler step
from the last estimate with the newest input is appended.  (Buffer accesses
that would raise `IndexError` in the source are modelled as no-ops.) -/
noncomputable def DRupdate (u : List (Fin 3 → ℝ)) (x x_hat : List (Fin 6 → ℝ)) :
    List (Fin 6 → ℝ) :=
  match x_hat.getLast? with
  | none => x_hat
  | some xh =>
    match x.getLast? with
    | none => x_hat
    | some xt =>
      if xh 0 < xt 0 then
        match u.getLast? with
        | none => x_hat
        | some ut => x_hat ++ [DRstep xh ut]
      else x_hat

/-- `KalmanFilter` constants: `A = np.eye(4)`. -/
noncomputable def KF_A : Matrix (Fin 4) (Fin 4) ℝ := 1

/-- `KalmanFilter` constants: `B` (4×2), scaled by `dt`. -/
noncomputable def KF_B : Matrix (Fin 4) (Fin 2) ℝ :=
  dt • Matrix.of
    ![![(r / 2) * Real.cos phid, (r / 2) * Real.cos phid],
      ![(r / 2) * Real.sin phid, (r / 2) * Real.sin phid],
      ![1, 0],
      ![0, 1]]

/-- `KalmanFilter` constants: `C` (2×4) selecting the position components. -/
noncomputable def KF_C : Matrix (Fin 2) (Fin 4) ℝ :=
  Matrix.of ![![1, 0, 0, 0], ![0, 1, 0, 0]]

/-- `KalmanFilter` constants: `Q = np.eye(4) * 100.0`. -/
noncomputable def KF_Q : Matrix (Fin 4) (Fin 4) ℝ := (100 : ℝ) • 1

/-- `KalmanFilter` constants: `R = np.eye(2)`. -/
noncomputable def KF_R : Matrix (Fin 2) (Fin 2) ℝ := 1

/-- `KalmanFilter` initial covariance: `P = np.eye(4)`. -/
noncomputable def KF_P0 : Matrix (Fin 4) (Fin 4) ℝ := 1

/-- The corrected reduced state computed by `KalmanFilter.update`:
prediction `A x + B u` on the 4 components `[x, y, thl, thr]`, then the
Kalman correction with innovation `y - C x⁻`. -/
noncomputable def KFcorrect (x4 : Fin 4 → ℝ) (u2 y2 : Fin 2 → ℝ)
    (P : Matrix (Fin 4) (Fin 4) ℝ) : Fin 4 → ℝ :=
  let xm := KF_A.mulVec x4 + KF_B.mulVec u2
  let K := Kalman.gain KF_C KF_R (Kalman.predCov KF_A KF_Q P)
  xm + K.mulVec (y2 - KF_C.mulVec xm)

/-- `KalmanFilter.update` on the current buffers, returning the new estimate
history and the new covariance.  The appended estimate is
`[t_prev + dt, phid] ++ corrected 4-state`. -/
noncomputable def KFupdate (u : List (Fin 3 → ℝ)) (x : List (Fin 6 → ℝ))
    (y : List (Fin 3 → ℝ)) (x_hat : List (Fin 6 → ℝ))
    (P : Matrix (Fin 4) (Fin 4) ℝ) :
    List (Fin 6 → ℝ) × Matrix (Fin 4) (Fin 4) ℝ :=
  match x_hat.getLast? with
  | none => (x_hat, P)
  | some xh =>
    match x.getLast? with
    | none => (x_hat, P)
    | some xt =>
      if xh 0 < xt 0 then
        match u.getLast?, y.getLast? with
        | some ut, some yt =>
          let z := KFcorrect (tail4 xh) (tail2 ut) (tail2 yt) P
          (x_hat ++ [![xh 0 + dt, phid, z 0, z 1, z 2, z 3]],
           Kalman.covStep KF_A KF_C KF_Q KF_R P)
        | _, _ => (x_hat, P)
      else (x_hat, P)

/-- `ExtendedKalmanFilter.f(x, u)`: differential-drive derivative of the
5-state `[phi, x, y, thl, thr]` with input `[u1, u2]` (left/right wheel
speed). -/
noncomputable def f (x : Fin 5 → ℝ) (u : Fin 2 → ℝ) : Fin 5 → ℝ :=
  ![(u 1 - u 0) * r / (2 * d),
    (u 1 + u 0) * (r / 2) * Real.cos (x 0),
    (u 1 + u 0) * (r / 2) * Real.sin (x 0),
    u 0,
    u 1]

/-- `ExtendedKalmanFilter.g(x, u) = x + f(x, u) * dt`. -/
noncomputable def g (x : Fin 5 → ℝ) (u : Fin 2 → ℝ) : Fin 5 → ℝ :=
  fun i => x i + f x u i * dt

/-- `ExtendedKalmanFilter` constant `C` (2×5): selects `[x, y]`. -/
noncomputable def EKF_C : Matrix (Fin 2) (Fin 5) ℝ :=
  Matrix.of ![![0, 1, 0, 0, 0], ![0, 0, 1, 0, 0]]

/-- `ExtendedKalmanFilter` constant `Q = np.diag([0.01, 0.25, 0.25, 0.01, 0.01])`. -/
noncomputable def EKF_Q : Matrix (Fin 5) (Fin 5) ℝ :=
  Matrix.diagonal ![0.01, 0.25, 0.25, 0.01, 0.01]

/-- `ExtendedKalmanFilter` constant `R = np.eye(2) * 100.0`. -/
noncomputable def EKF_R : Matrix (Fin 2) (Fin 2) ℝ := (100 : ℝ) • 1

/-- `ExtendedKalmanFilter` initial covariance
`P = np.diag([1.0, 0.25, 0.25, 100.0, 100.0])`. -/
noncomputable def EKF_P0 : Matrix (Fin 5) (Fin 5) ℝ :=
  Matrix.diagonal ![1.0, 0.25, 0.25, 100.0, 100.0]

/-- `ExtendedKalmanFilter.h(x, y_obs) = self.C @ x`: the expected
measurement is the *linear* map `C x`, not a range-bearing model. -/
noncomputable def EKF_h (x : Fin 5 → ℝ) : Fin 2 → ℝ :=
  EKF_C.mulVec x

/-- The matrix `df_dx` built by `ExtendedKalmanFilter.approx_A`: zeros except
`[1,0] = -(u1+u2)·(r/2)·sin(phi)`, `[2,0] = (u1+u2)·(r/2)·cos(phi)`. -/
noncomputable def dfdx (x : Fin 5 → ℝ) (u : Fin 2 → ℝ) : Matrix (Fin 5) (Fin 5) ℝ :=
  Matrix.of
    ![![0, 0, 0, 0, 0],
      ![-(u 0 + u 1) * (r / 2) * Real.sin (x 0), 0, 0, 0, 0],
      ![(u 0 + u 1) * (r / 2) * Real.cos (x 0), 0, 0, 0, 0],
      ![0, 0, 0, 0, 0],
      ![0, 0, 0, 0, 0]]

/-- `ExtendedKalmanFilter.approx_A(x, u) = np.eye(5) + df_dx * dt`. -/
noncomputable def approx_A (x : Fin 5 → ℝ) (u : Fin 2 → ℝ) :
    Matrix (Fin 5) (Fin 5) ℝ :=
  1 + dt • dfdx x u

/-- `ExtendedKalmanFilter.approx_C(x)`: returns the constant `self.C`. -/
noncomputable def approx_C (_ : Fin 5 → ℝ) : Matrix (Fin 2) (Fin 5) ℝ :=
  EKF_C

/-- The corrected 5-state computed by `ExtendedKalmanFilter.update`. -/
noncomputable def EKFcorrect (x5 : Fin 5 → ℝ) (u2 y2 : Fin 2 → ℝ)
    (P : Matrix (Fin 5) (Fin 5) ℝ) : Fin 5 → ℝ :=
  let xp := g x5 u2
  let A := approx_A x5 u2
  let K := Kalman.gain (approx_C xp) EKF_R (Kalman.predCov A EKF_Q P)
  xp + K.mulVec (y2 - EKF_h xp)

/-- `ExtendedKalmanFilter.update` on the current buffers, returning the new
estimate history and the new covariance. -/
noncomputable def EKFupdate (u : List (Fin 3 → ℝ)) (x : List (Fin 6 → ℝ))
    (y : List (Fin 3 → ℝ)) (x_hat : List (Fin 6 → ℝ))
    (P : Matrix (Fin 5) (Fin 5) ℝ) :
    List (Fin 6 → ℝ) × Matrix (Fin 5) (Fin 5) ℝ :=
  match x_hat.getLast? with
  | none => (x_hat, P)
  | some xh =>
    match x.getLast? with
    | none => (x_hat, P)
    | some xt =>
      if xh 0 < xt 0 then
        match u.getLast?, y.getLast? with
        | some ut, some yt =>
          let z := EKFcorrect (tail5 xh) (tail2 ut) (tail2 yt) P
          (x_hat ++ [![xh 0 + dt, z 0, z 1, z 2, z 3, z 4]],
           Kalman.covStep (approx_A (tail5 xh) (tail2 ut))
             (approx_C (g (tail5 xh) (tail2 ut))) EKF_Q EKF_R P)
        | _, _ => (x_hat, P)
      else (x_hat, P)

end Turtlebot

/-! ## Drone extended Kalman filter (continued) -/

namespace Drone

/-- `ExtendedKalmanFilter` constant `Q = np.eye(6) * 0.01`. -/
noncomputable def EKF_Q : Matrix (Fin 6) (Fin 6) ℝ := (0.01 : ℝ) • 1

/-- `ExtendedKalmanFilter` constant `R = np.eye(2) * 10.0`. -/
noncomputable def EKF_R : Matrix (Fin 2) (Fin 2) ℝ := (10 : ℝ) • 1

/-- `ExtendedKalmanFilter` initial covariance `P = np.eye(6) * 0.1`. -/
noncomputable def EKF_P0 : Matrix (Fin 6) (Fin 6) ℝ := (0.1 : ℝ) • 1

/-- The corrected state computed by the drone `ExtendedKalmanFilter.update`:
predict with `g`, then correct with gain times the innovation
`y - h(x⁻)` where `h` is the nonlinear range/bearing observation.  `y` is the
2-component measurement vector. -/
noncomputable def EKFcorrect (dt : ℝ) (x : Fin 6 → ℝ) (u : Fin 2 → ℝ)
    (y : Fin 2 → ℝ) (P : Matrix (Fin 6) (Fin 6) ℝ) : Fin 6 → ℝ :=
  let xp := g dt x u
  let A := approx_A dt x u
  let K := Kalman.gain (approx_C xp) EKF_R (Kalman.predCov A EKF_Q P)
  xp + K.mulVec (y - h xp)

/-- The drone `ExtendedKalmanFilter.update`: guarded only on a nonempty
estimate history (the timestamp check is commented out in the source). -/
noncomputable def EKFupdate (dt : ℝ) (u : Fin 2 → ℝ) (y : Fin 2 → ℝ)
    (x_hat : List (Fin 6 → ℝ)) (P : Matrix (Fin 6) (Fin 6) ℝ) :
    List (Fin 6 → ℝ) × Matrix (Fin 6) (Fin 6) ℝ :=
  match x_hat.getLast? with
  | none => (x_hat, P)
  | some xh =>
      (x_hat ++ [EKFcorrect dt xh u y P],
       Kalman.covStep (approx_A dt xh u) (approx_C (g dt xh u)) EKF_Q EKF_R P)

end Drone

/-! ## Observation model as described by the specification -/

namespace Spec

/-- Modelled from the spec: the range-bearing `ObservationModel` for the
turtlebot — "expected measurement is Euclidean distance from position to a
fixed Landmark, and the bearing state component directly", with the landmark
at `(0.5, 0.5)`.  Used only to compare against the turtlebot EKF's
implemented `h`. -/
noncomputable def rangeBearing (x : Fin 5 → ℝ) : Fin 2 → ℝ :=
  ![Real.sqrt ((0.5 - x 1) ^ 2 + (0.5 - x 2) ^ 2), x 0]

end Spec

/-! ## Concrete 3-step differential-drive scenario (spec §8, end-to-end) -/

namespace Scenario

/-- Initial estimate: timestamp 0 and state `[0,0,0,0,0]`. -/
noncomputable def x0 : Fin 6 → ℝ := ![0, 0, 0, 0, 0, 0]

/-- A ground-truth record with timestamp `t` (only the timestamp matters for
the update guard). -/
noncomputable def xr (t : ℝ) : Fin 6 → ℝ := ![t, 0, 0, 0, 0, 0]

/-- Expected estimate after one step. -/
noncomputable def v1 : Fin 6 → ℝ := ![0.1, 0, 0.0033, 0, 0.1, 0.1]

/-- Expected estimate after two steps. -/
noncomputable def v2 : Fin 6 → ℝ := ![0.2, 0, 0.0066, 0, 0.2, 0.2]

end Scenario

/-! ### C8: the planar-quadrotor continuous-time derivative -/

/-- **C8.** For every state `[x, z, phi, vx, vz, vphi]` and input
`[thrust, torque]`, the quadrotor derivative is: position derivative =
velocity, `dvx = -(thrust/m)·sin(phi)`, `dvz = (thrust/m)·cos(phi) - g`,
`dvphi = torque/J`, `dphi = vphi`; and `ExtendedKalmanFilter.f` agrees with
`DeadReckoning.model`. -/
theorem drone_model_derivative :
    (∀ (x : Fin 6 → ℝ) (u : Fin 2 → ℝ),
      Drone.DRmodel x u 0 = x 3 ∧
      Drone.DRmodel x u 1 = x 4 ∧
      Drone.DRmodel x u 2 = x 5 ∧
      Drone.DRmodel x u 3 = -(u 0 / Drone.m) * Real.sin (x 2) ∧
      Drone.DRmodel x u 4 = (u 0 / Drone.m) * Real.cos (x 2) - Drone.gr ∧
      Drone.DRmodel x u 5 = u 1 / Drone.J) ∧
    ∀ x u, Drone.f x u = Drone.DRmodel x u := by
  refine ⟨fun x u => ?_, fun x u => rfl⟩
  refine ⟨rfl, rfl, rfl, rfl, rfl, rfl⟩

/-! ### C9: the expected range always includes the landmark's y-offset -/

/-- **C9.** The drone EKF's expected range is
`sqrt((landmark_x - x)² + landmark_y² + (landmark_z - z)²)` with
landmark `(0, 5, 5)`: the vehicle's out-of-plane coordinate is taken to be
`0`, so the landmark's fixed `y`-offset of `5` is always included and the
expected range is at least `5` for every state. -/
theorem drone_h_out_of_plane :
    Drone.landmark = (0, 5, 5) ∧
    ∀ x : Fin 6 → ℝ,
      Drone.h x 0 =
        Real.sqrt ((Drone.landmark.1 - x 0) ^ 2 + Drone.landmark.2.1 ^ 2 +
          (Drone.landmark.2.2 - x 1) ^ 2) ∧
      Drone.h x 1 = x 2 ∧
      5 ≤ Drone.h x 0 := by
  refine ⟨rfl, fun x => ⟨by simp [Drone.h, Drone.dist], rfl, ?_⟩⟩
  have h25 : Real.sqrt 25 = 5 := by
    rw [show (25 : ℝ) = 5 ^ 2 by norm_num, Real.sqrt_sq (by norm_num)]
  have hle : (25 : ℝ) ≤ (Drone.landmark.1 - x 0) ^ 2 + (Drone.landmark.2.1 - 0) ^ 2 +
      (Drone.landmark.2.2 - x 1) ^ 2 := by
    have h1 : (0 : ℝ) ≤ (Drone.landmark.1 - x 0) ^ 2 := sq_nonneg _
    have h2 : (0 : ℝ) ≤ (Drone.landmark.2.2 - x 1) ^ 2 := sq_nonneg _
    have : (Drone.landmark.2.1 - 0 : ℝ) ^ 2 = 25 := by
      simp [Drone.landmark]; norm_num
    linarith
  calc (5 : ℝ) = Real.sqrt 25 := h25.symm
    _ ≤ Drone.h x 0 := Real.sqrt_le_sqrt hle

/-! ### C7: end-to-end differential-drive scenario -/

/-- **C7.** With `dt = 0.1`, `d = 0.08`, `r = 0.033`, initial estimate
`[0,0,0,0,0]` and equal wheel speeds `u_L = u_R = 1`, the turtlebot
dead-reckoning estimates after one and two update steps are exactly
`[0, 0.0033, 0, 0.1, 0.1]` and `[0, 0.0066, 0, 0.2, 0.2]` (components
`[phi, x, y, thl, thr]`; the leading component is the timestamp). -/
theorem tb_deadreckoning_scenario :
    Turtlebot.DRupdate [![0, 1, 1], ![0.1, 1, 1]]
        [Scenario.xr 0, Scenario.xr 0.1] [Scenario.x0] =
      [Scenario.x0, Scenario.v1] ∧
    Turtlebot.DRupdate [![0, 1, 1], ![0.1, 1, 1], ![0.2, 1, 1]]
        [Scenario.xr 0, Scenario.xr 0.1, Scenario.xr 0.2]
        [Scenario.x0, Scenario.v1] =
      [Scenario.x0, Scenario.v1, Scenario.v2] := by
  have hstep1 : Turtlebot.DRstep Scenario.x0 ![0.1, 1, 1] = Scenario.v1 := by
    funext i
    fin_cases i <;>
      · norm_num [Turtlebot.DRstep, Turtlebot.DRmodel, Scenario.x0, Scenario.v1,
          Turtlebot.d, Turtlebot.r, Turtlebot.dt, Real.cos_zero, Real.sin_zero]
        try rfl
  have hstep2 : Turtlebot.DRstep Scenario.v1 ![0.2, 1, 1] = Scenario.v2 := by
    funext i
    fin_cases i <;>
      · norm_num [Turtlebot.DRstep, Turtlebot.DRmodel, Scenario.v1, Scenario.v2,
          Turtlebot.d, Turtlebot.r, Turtlebot.dt, Real.cos_zero, Real.sin_zero]
        try rfl
  constructor
  · show (if Scenario.x0 0 < Scenario.xr 0.1 0 then _ else _) = _
    rw [if_pos (by norm_num [Scenario.x0, Scenario.xr] :
      Scenario.x0 0 < Scenario.xr 0.1 0)]
    simp [hstep1]
  · show (if Scenario.v1 0 < Scenario.xr 0.2 0 then _ else _) = _
    rw [if_pos (by norm_num [Scenario.v1, Scenario.xr] :
      Scenario.v1 0 < Scenario.xr 0.2 0)]
    simp [hstep2]

/-! ### C3: the state-transition Jacobian -/

set_option maxHeartbeats 1000000 in
lemma drone_dfdx_hasDerivAt (x : Fin 6 → ℝ) (u : Fin 2 → ℝ) (i j : Fin 6) :
    HasDerivAt (fun s => Drone.f (Function.update x j s) u i)
      (Drone.dfdx x u i j) (x j) := by
  fin_cases i <;> fin_cases j <;>
    simp [Drone.f, Drone.dfdx, Function.update] <;>
    first
      | exact hasDerivAt_const _ _
      | exact hasDerivAt_id _
      | exact ((Real.hasDerivAt_sin (x 2)).const_mul (u 0 / Drone.m)).neg
      | exact (Real.hasDerivAt_sin (x 2)).const_mul (-(u 0 / Drone.m))
      | simpa using ((Real.hasDerivAt_cos (x 2)).const_mul (u 0 / Drone.m)).sub_const
          Drone.gr

set_option maxHeartbeats 1000000 in
lemma drone_dfdx_state_indep (x x' : Fin 6 → ℝ) (u : Fin 2 → ℝ) (i j : Fin 6) :
    Drone.dfdx x u i j = Drone.dfdx x' u i j ∨ ((i = 3 ∨ i = 4) ∧ j = 2) := by
  fin_cases i <;> fin_cases j <;>
    first
      | (right; exact ⟨Or.inl rfl, rfl⟩)
      | (right; exact ⟨Or.inr rfl, rfl⟩)
      | (left; simp only [Drone.dfdx, Matrix.of_apply, vec6_zero, vec6_one, vec6_two,
          vec6_three, vec6_four, vec6_five, vec6_mk0, vec6_mk1, vec6_mk2, vec6_mk3,
          vec6_mk4, vec6_mk5])

set_option maxHeartbeats 1000000 in
lemma tb_dfdx_hasDerivAt (x : Fin 5 → ℝ) (u : Fin 2 → ℝ) (i j : Fin 5) :
    HasDerivAt (fun s => Turtlebot.f (Function.update x j s) u i)
      (Turtlebot.dfdx x u i j) (x j) := by
  fin_cases i <;> fin_cases j <;>
    simp [Turtlebot.f, Turtlebot.dfdx, Function.update] <;>
    first
      | exact hasDerivAt_const _ _
      | exact hasDerivAt_id _
      | (convert (Real.hasDerivAt_cos (x 0)).const_mul
            ((u 1 + u 0) * (Turtlebot.r / 2)) using 1 <;>
          first
            | (funext t; ring1)
            | ring1)
      | (convert (Real.hasDerivAt_sin (x 0)).const_mul
            ((u 1 + u 0) * (Turtlebot.r / 2)) using 1 <;>
          first
            | (funext t; ring1)
            | ring1)

set_option maxHeartbeats 1000000 in
lemma tb_dfdx_state_indep (x x' : Fin 5 → ℝ) (u : Fin 2 → ℝ) (i j : Fin 5) :
    Turtlebot.dfdx x u i j = Turtlebot.dfdx x' u i j ∨ ((i = 1 ∨ i = 2) ∧ j = 0) := by
  fin_cases i <;> fin_cases j <;>
    first
      | (right; exact ⟨Or.inl rfl, rfl⟩)
      | (right; exact ⟨Or.inr rfl, rfl⟩)
      | (left; simp only [Turtlebot.dfdx, Matrix.of_apply, vec5_zero, vec5_one, vec5_two,
          vec5_three, vec5_four, vec5_mk0, vec5_mk1, vec5_mk2, vec5_mk3, vec5_mk4])

/-- **C3.** For every operating point, `approx_A = I + (df/dx)·dt` where
`df/dx` is the true Jacobian of the continuous dynamics `f` (every entry is
the derivative of the corresponding component of `f` in the corresponding
state coordinate).  For the quadrotor the only bearing-dependent entries are
`∂(dvx)/∂phi = -(thrust/m)·cos(phi)` and `∂(dvz)/∂phi = -(thrust/m)·sin(phi)`
in the velocity rows (3 and 4); all other entries are state-independent.  For
the differential-drive model only the position rows (1 and 2) depend on the
bearing. -/
theorem jacobian_state_transition :
    (∀ (dt : ℝ) (x : Fin 6 → ℝ) (u : Fin 2 → ℝ),
      Drone.approx_A dt x u = 1 + dt • Drone.dfdx x u) ∧
    (∀ (x : Fin 6 → ℝ) (u : Fin 2 → ℝ) (i j : Fin 6),
      HasDerivAt (fun s => Drone.f (Function.update x j s) u i)
        (Drone.dfdx x u i j) (x j)) ∧
    (∀ (x : Fin 6 → ℝ) (u : Fin 2 → ℝ),
      Drone.dfdx x u 3 2 = -(u 0 / Drone.m) * Real.cos (x 2) ∧
      Drone.dfdx x u 4 2 = -(u 0 / Drone.m) * Real.sin (x 2)) ∧
    (∀ (x x' : Fin 6 → ℝ) (u : Fin 2 → ℝ) (i j : Fin 6),
      Drone.dfdx x u i j = Drone.dfdx x' u i j ∨ ((i = 3 ∨ i = 4) ∧ j = 2)) ∧
    (∀ (x : Fin 5 → ℝ) (u : Fin 2 → ℝ),
      Turtlebot.approx_A x u = 1 + Turtlebot.dt • Turtlebot.dfdx x u) ∧
    (∀ (x : Fin 5 → ℝ) (u : Fin 2 → ℝ) (i j : Fin 5),
      HasDerivAt (fun s => Turtlebot.f (Function.update x j s) u i)
        (Turtlebot.dfdx x u i j) (x j)) ∧
    (∀ (x x' : Fin 5 → ℝ) (u : Fin 2 → ℝ) (i j : Fin 5),
      Turtlebot.dfdx x u i j = Turtlebot.dfdx x' u i j ∨
        ((i = 1 ∨ i = 2) ∧ j = 0)) :=
  ⟨fun _ x u => rfl, drone_dfdx_hasDerivAt, fun x u => ⟨rfl, rfl⟩,
   drone_dfdx_state_indep, fun x u => rfl, tb_dfdx_hasDerivAt, tb_dfdx_state_indep⟩

/-! ### C4: the observation Jacobian for the range-bearing mode -/

lemma drone_h_inner_pos (x : Fin 6 → ℝ) :
    0 < (Drone.landmark.1 - x 0) ^ 2 + (Drone.landmark.2.1 - 0) ^ 2 +
      (Drone.landmark.2.2 - x 1) ^ 2 := by
  have h1 : (0:ℝ) ≤ (Drone.landmark.1 - x 0) ^ 2 := sq_nonneg _
  have h2 : (0:ℝ) ≤ (Drone.landmark.2.2 - x 1) ^ 2 := sq_nonneg _
  have h3 : (Drone.landmark.2.1 - 0 : ℝ) ^ 2 = 25 := by norm_num [Drone.landmark]
  linarith

lemma drone_dist_pos (x : Fin 6 → ℝ) : 0 < Drone.dist x :=
  Real.sqrt_pos.mpr (drone_h_inner_pos x)

lemma drone_range_deriv_x (x : Fin 6 → ℝ) :
    HasDerivAt (fun s => Drone.dist (Function.update x 0 s))
      ((x 0 - Drone.landmark.1) / Drone.dist x) (x 0) := by
  have hin : HasDerivAt
      (fun s => (Drone.landmark.1 - s) ^ 2 + (Drone.landmark.2.1 - 0) ^ 2 +
        (Drone.landmark.2.2 - x 1) ^ 2)
      (2 * (Drone.landmark.1 - x 0) ^ 1 * (-1)) (x 0) :=
    ((((hasDerivAt_id (x 0)).const_sub Drone.landmark.1).pow 2).add_const _).add_const _
  have hs := hin.sqrt (ne_of_gt (drone_h_inner_pos x))
  have hfun : (fun s => Drone.dist (Function.update x 0 s)) =
      fun s => Real.sqrt ((Drone.landmark.1 - s) ^ 2 + (Drone.landmark.2.1 - 0) ^ 2 +
        (Drone.landmark.2.2 - x 1) ^ 2) := by
    funext s; simp [Drone.dist, Function.update]
  rw [hfun]
  convert hs using 1
  rw [show Real.sqrt ((Drone.landmark.1 - x 0) ^ 2 + (Drone.landmark.2.1 - 0) ^ 2 +
      (Drone.landmark.2.2 - x 1) ^ 2) = Drone.dist x from rfl]
  have hd := (drone_dist_pos x).ne'
  field_simp
  ring1

lemma drone_range_deriv_z (x : Fin 6 → ℝ) :
    HasDerivAt (fun s => Drone.dist (Function.update x 1 s))
      ((x 1 - Drone.landmark.2.2) / Drone.dist x) (x 1) := by
  have hin : HasDerivAt
      (fun s => (Drone.landmark.1 - x 0) ^ 2 + (Drone.landmark.2.1 - 0) ^ 2 +
        (Drone.landmark.2.2 - s) ^ 2)
      (2 * (Drone.landmark.2.2 - x 1) ^ 1 * (-1)) (x 1) :=
    (((hasDerivAt_id (x 1)).const_sub Drone.landmark.2.2).pow 2).const_add _
  have hs := hin.sqrt (ne_of_gt (drone_h_inner_pos x))
  have hfun : (fun s => Drone.dist (Function.update x 1 s)) =
      fun s => Real.sqrt ((Drone.landmark.1 - x 0) ^ 2 + (Drone.landmark.2.1 - 0) ^ 2 +
        (Drone.landmark.2.2 - s) ^ 2) := by
    funext s; simp [Drone.dist, Function.update]
  rw [hfun]
  convert hs using 1
  rw [show Real.sqrt ((Drone.landmark.1 - x 0) ^ 2 + (Drone.landmark.2.1 - 0) ^ 2 +
      (Drone.landmark.2.2 - x 1) ^ 2) = Drone.dist x from rfl]
  have hd := (drone_dist_pos x).ne'
  field_simp
  ring1

set_option maxHeartbeats 1000000 in
/-- **C4.** For every predicted state, the drone EKF's `approx_C` (the
range-bearing observation mode) is exactly the Jacobian of `h`: the range
row has entries `(x - landmark_x)/distance` and `(z - landmark_z)/distance`
in the two position columns and zeros elsewhere, and the bearing row is `1`
at the bearing component and zero elsewhere; every entry is the partial
derivative of the corresponding component of `h`. -/
theorem jacobian_observation_range_bearing :
    (∀ x : Fin 6 → ℝ,
      Drone.approx_C x 0 0 = (x 0 - Drone.landmark.1) / Drone.dist x ∧
      Drone.approx_C x 0 1 = (x 1 - Drone.landmark.2.2) / Drone.dist x ∧
      Drone.approx_C x 1 2 = 1 ∧
      (∀ j : Fin 6, 2 ≤ j.1 → Drone.approx_C x 0 j = 0) ∧
      (∀ j : Fin 6, j ≠ 2 → Drone.approx_C x 1 j = 0)) ∧
    (∀ (x : Fin 6 → ℝ) (i : Fin 2) (j : Fin 6),
      HasDerivAt (fun s => Drone.h (Function.update x j s) i)
        (Drone.approx_C x i j) (x j)) := by
  constructor
  · intro x
    refine ⟨rfl, rfl, rfl, ?_, ?_⟩
    · intro j hj
      fin_cases j <;> simp at hj ⊢ <;> rfl
    · intro j hj
      fin_cases j <;> simp at hj ⊢ <;> rfl
  · intro x i j
    fin_cases i <;> fin_cases j <;>
      first
        | exact drone_range_deriv_x x
        | exact drone_range_deriv_z x
        | (simp [Drone.h, Drone.dist, Drone.approx_C, Function.update] <;>
            first
              | exact hasDerivAt_const _ _
              | exact hasDerivAt_id _)

/-! ### C6: the timestamp guard on updates -/

/-- **C6, counterexample.** Not every estimator variant skips the update when
the newest ground-truth timestamp has not advanced: the turtlebot
`OracleObserver.update` appends unconditionally.  Here the last estimate and
the newest ground-truth record both have timestamp `0`, yet an estimate is
appended. -/
theorem tb_oracle_append_counterexample :
    Turtlebot.oracleUpdate [Scenario.xr 0] [Scenario.xr 0] ≠ [Scenario.xr 0] := by
  intro hEq
  have := congrArg List.length hEq
  simp [Turtlebot.oracleUpdate] at this

/-- **C6, amended.** For the turtlebot `DeadReckoning`, `KalmanFilter` and
`ExtendedKalmanFilter`, `update` is a no-op (appending nothing) when the
newest ground-truth record's timestamp has not advanced past the last
estimate's timestamp, and appends exactly one estimate when it has advanced
(with nonempty input/measurement buffers); the turtlebot `OracleObserver`
appends the newest ground-truth record unconditionally. -/
theorem tb_update_timestamp_guard :
    (∀ (u : List (Fin 3 → ℝ)) (x x_hat : List (Fin 6 → ℝ)) xh xt,
      x_hat.getLast? = some xh → x.getLast? = some xt → ¬ xh 0 < xt 0 →
      Turtlebot.DRupdate u x x_hat = x_hat) ∧
    (∀ u x y x_hat P xh xt, x_hat.getLast? = some xh → x.getLast? = some xt →
      ¬ xh 0 < xt 0 → Turtlebot.KFupdate u x y x_hat P = (x_hat, P)) ∧
    (∀ u x y x_hat P xh xt, x_hat.getLast? = some xh → x.getLast? = some xt →
      ¬ xh 0 < xt 0 → Turtlebot.EKFupdate u x y x_hat P = (x_hat, P)) ∧
    (∀ u x x_hat xh xt ut, x_hat.getLast? = some xh → x.getLast? = some xt →
      u.getLast? = some ut → xh 0 < xt 0 →
      Turtlebot.DRupdate u x x_hat = x_hat ++ [Turtlebot.DRstep xh ut]) ∧
    (∀ u x y x_hat P xh xt ut yt, x_hat.getLast? = some xh →
      x.getLast? = some xt → u.getLast? = some ut → y.getLast? = some yt →
      xh 0 < xt 0 →
      ∃ e, (Turtlebot.KFupdate u x y x_hat P).1 = x_hat ++ [e]) ∧
    (∀ u x y x_hat P xh xt ut yt, x_hat.getLast? = some xh →
      x.getLast? = some xt → u.getLast? = some ut → y.getLast? = some yt →
      xh 0 < xt 0 →
      ∃ e, (Turtlebot.EKFupdate u x y x_hat P).1 = x_hat ++ [e]) ∧
    (∀ (x x_hat : List (Fin 6 → ℝ)) xt, x.getLast? = some xt →
      Turtlebot.oracleUpdate x x_hat = x_hat ++ [xt]) := by
  refine ⟨?_, ?_, ?_, ?_, ?_, ?_, ?_⟩
  · intro u x x_hat xh xt h1 h2 hlt
    simp only [Turtlebot.DRupdate, h1, h2, if_neg hlt]
  · intro u x y x_hat P xh xt h1 h2 hlt
    simp only [Turtlebot.KFupdate, h1, h2, if_neg hlt]
  · intro u x y x_hat P xh xt h1 h2 hlt
    simp only [Turtlebot.EKFupdate, h1, h2, if_neg hlt]
  · intro u x x_hat xh xt ut h1 h2 h3 hlt
    simp only [Turtlebot.DRupdate, h1, h2, h3, if_pos hlt]
  · intro u x y x_hat P xh xt ut yt h1 h2 h3 h4 hlt
    refine ⟨(fun z => ![xh 0 + Turtlebot.dt, Turtlebot.phid, z 0, z 1, z 2, z 3])
      (Turtlebot.KFcorrect (Turtlebot.tail4 xh) (Turtlebot.tail2 ut)
        (Turtlebot.tail2 yt) P), ?_⟩
    simp only [Turtlebot.KFupdate, h1, h2, h3, h4, if_pos hlt]
  · intro u x y x_hat P xh xt ut yt h1 h2 h3 h4 hlt
    refine ⟨(fun z => ![xh 0 + Turtlebot.dt, z 0, z 1, z 2, z 3, z 4])
      (Turtlebot.EKFcorrect (Turtlebot.tail5 xh) (Turtlebot.tail2 ut)
        (Turtlebot.tail2 yt) P), ?_⟩
    simp only [Turtlebot.EKFupdate, h1, h2, h3, h4, if_pos hlt]
  · intro x x_hat xt h1
    simp only [Turtlebot.oracleUpdate, h1]

/-- **C6, witness.**  Concrete instances of `tb_update_timestamp_guard`: with
both timestamps `0` the dead-reckoning update is a no-op, and with an advanced
timestamp it appends exactly the Euler step. -/
theorem tb_update_timestamp_guard_witness :
    Turtlebot.DRupdate [![0, 1, 1]] [Scenario.xr 0] [Scenario.xr 0] =
      [Scenario.xr 0] ∧
    Turtlebot.DRupdate [![0, 1, 1]] [Scenario.xr 0.1] [Scenario.x0] =
      [Scenario.x0] ++ [Turtlebot.DRstep Scenario.x0 ![0, 1, 1]] := by
  constructor
  · exact tb_update_timestamp_guard.1 [![0, 1, 1]] [Scenario.xr 0]
      [Scenario.xr 0] (Scenario.xr 0) (Scenario.xr 0) rfl rfl
      (by norm_num [Scenario.xr])
  · exact tb_update_timestamp_guard.2.2.2.1 [![0, 1, 1]] [Scenario.xr 0.1]
      [Scenario.x0] Scenario.x0 (Scenario.xr 0.1) ![0, 1, 1] rfl rfl rfl
      (by norm_num [Scenario.x0, Scenario.xr])

/-! ### C10: shape of the turtlebot Kalman-filter estimate -/

/-- **C10.** Every estimate appended by the turtlebot `KalmanFilter.update`
has bearing component exactly `phid = pi/4` and timestamp exactly the
previous estimate's timestamp plus `dt`; the Kalman correction (predict with
`A`, `B`, gain from `P`) is applied only to the reduced 4-component state
`[x, y, thl, thr]` (components `2:` of the previous estimate). -/
theorem tb_kf_estimate_shape
    (u : List (Fin 3 → ℝ)) (x : List (Fin 6 → ℝ)) (y : List (Fin 3 → ℝ))
    (x_hat : List (Fin 6 → ℝ)) (P : Matrix (Fin 4) (Fin 4) ℝ)
    (xh xt : Fin 6 → ℝ) (ut yt : Fin 3 → ℝ)
    (h1 : x_hat.getLast? = some xh) (h2 : x.getLast? = some xt)
    (h3 : u.getLast? = some ut) (h4 : y.getLast? = some yt)
    (hlt : xh 0 < xt 0) :
    Turtlebot.KFupdate u x y x_hat P =
      (x_hat ++
        [![xh 0 + Turtlebot.dt, Turtlebot.phid,
           Turtlebot.KFcorrect (Turtlebot.tail4 xh) (Turtlebot.tail2 ut)
             (Turtlebot.tail2 yt) P 0,
           Turtlebot.KFcorrect (Turtlebot.tail4 xh) (Turtlebot.tail2 ut)
             (Turtlebot.tail2 yt) P 1,
           Turtlebot.KFcorrect (Turtlebot.tail4 xh) (Turtlebot.tail2 ut)
             (Turtlebot.tail2 yt) P 2,
           Turtlebot.KFcorrect (Turtlebot.tail4 xh) (Turtlebot.tail2 ut)
             (Turtlebot.tail2 yt) P 3]],
       Kalman.covStep Turtlebot.KF_A Turtlebot.KF_C Turtlebot.KF_Q
         Turtlebot.KF_R P) ∧
    Turtlebot.phid = Real.pi / 4 := by
  constructor
  · simp only [Turtlebot.KFupdate, h1, h2, h3, h4, if_pos hlt]
  · rfl

/-! ### C1: the dead-reckoning recursion over a replay run -/

lemma drTail_length (dt : ℝ) (xh : Fin 6 → ℝ) (rs : List Drone.Record) :
    (Drone.drTail dt xh rs).length = rs.length := by
  induction rs generalizing xh with
  | nil => rfl
  | cons r rs ih => simp [Drone.drTail, ih]

lemma DRupdate_ne_nil (dt : ℝ) (u : Fin 2 → ℝ) (x_hat : List (Fin 6 → ℝ))
    (h : x_hat ≠ []) :
    Drone.DRupdate dt u x_hat =
      x_hat ++ [Drone.DRstep dt (x_hat.getLast h) u] := by
  simp only [Drone.DRupdate, List.getLast?_eq_getLast _ h]

lemma DRloop_eq_append (dt : ℝ) (rs : List Drone.Record) :
    ∀ (x_hat : List (Fin 6 → ℝ)) (h : x_hat ≠ []),
      Drone.DRloop dt rs x_hat = x_hat ++ Drone.drTail dt (x_hat.getLast h) rs := by
  induction rs with
  | nil => intro x_hat h; simp [Drone.DRloop, Drone.drTail]
  | cons r rs ih =>
    intro x_hat h
    have hemp : x_hat.isEmpty = false := by
      simpa [List.isEmpty_iff] using h
    have hlast : (x_hat ++ [Drone.DRstep dt (x_hat.getLast h) r.u]).getLast
        (by simp) = Drone.DRstep dt (x_hat.getLast h) r.u := by
      simp [List.getLast_append]
    calc Drone.DRloop dt (r :: rs) x_hat
        = Drone.DRloop dt rs (Drone.DRupdate dt r.u x_hat) := by
          simp [Drone.DRloop, hemp]
      _ = Drone.DRloop dt rs (x_hat ++ [Drone.DRstep dt (x_hat.getLast h) r.u]) := by
          rw [DRupdate_ne_nil dt r.u x_hat h]
      _ = (x_hat ++ [Drone.DRstep dt (x_hat.getLast h) r.u]) ++
            Drone.drTail dt (Drone.DRstep dt (x_hat.getLast h) r.u) rs := by
          rw [ih _ (by simp), hlast]
      _ = x_hat ++ Drone.drTail dt (x_hat.getLast h) (r :: rs) := by
          simp [Drone.drTail]

lemma DRrun_cons (dt : ℝ) (r : Drone.Record) (rs : List Drone.Record) :
    Drone.DRrun dt (r :: rs) = r.x :: Drone.drTail dt r.x rs := by
  have : Drone.DRrun dt (r :: rs) = Drone.DRloop dt rs [r.x] := by
    simp [Drone.DRrun, Drone.DRloop]
  rw [this, DRloop_eq_append dt rs [r.x] (by simp)]
  simp

lemma DRrun_length (dt : ℝ) (r : Drone.Record) (rs : List Drone.Record) :
    (Drone.DRrun dt (r :: rs)).length = (r :: rs).length := by
  simp [DRrun_cons, drTail_length]

lemma drTail_getD (dt : ℝ) :
    ∀ (rs : List Drone.Record) (xh : Fin 6 → ℝ) (i : ℕ), i < rs.length →
      (xh :: Drone.drTail dt xh rs).getD (i + 1) (fun _ => 0) =
        Drone.DRstep dt
          ((xh :: Drone.drTail dt xh rs).getD i (fun _ => 0))
          ((rs.getD i ⟨0, fun _ => 0, fun _ => 0, fun _ => 0⟩).u) := by
  intro rs
  induction rs with
  | nil => intro xh i h; simp at h
  | cons r rs ih =>
    intro xh i h
    match i with
    | 0 => simp [Drone.drTail]
    | i + 1 =>
      have h' : i < rs.length := by simpa using h
      have := ih (Drone.DRstep dt xh r.u) i h'
      simpa [Drone.drTail] using this

/-- **C1, counterexample.** The dead-reckoning estimate `x_hat[1]` is *not*
`x_hat[0] + model(x_hat[0], u[0])·dt`: with `u[0]` carrying zero torque and
`u[1]` carrying torque `J`, the code's run is `[x_hat[0], Euler(x_hat[0], u[1])]`
(it uses `u[1]`, the newest input, giving angular velocity `1`), and differs
from `[x_hat[0], Euler(x_hat[0], u[0])]` claimed by the spec (angular
velocity `0`). -/
theorem drone_dr_previous_input_counterexample :
    Drone.DRrun 1
        [⟨0, (fun _ => 0), ![0, 0], (fun _ => 0)⟩,
         ⟨1, (fun _ => 0), ![0, Drone.J], (fun _ => 0)⟩] =
      [(fun _ => 0), Drone.DRstep 1 (fun _ => 0) ![0, Drone.J]] ∧
    Drone.DRrun 1
        [⟨0, (fun _ => 0), ![0, 0], (fun _ => 0)⟩,
         ⟨1, (fun _ => 0), ![0, Drone.J], (fun _ => 0)⟩] ≠
      [(fun _ => 0), Drone.DRstep 1 (fun _ => 0) ![0, 0]] := by
  have hrun : Drone.DRrun 1
      [⟨0, (fun _ => 0), ![0, 0], (fun _ => 0)⟩,
       ⟨1, (fun _ => 0), ![0, Drone.J], (fun _ => 0)⟩] =
      [(fun _ => 0), Drone.DRstep 1 (fun _ => 0) ![0, Drone.J]] := by
    rw [DRrun_cons]
    rfl
  refine ⟨hrun, fun hbad => ?_⟩
  have hlists := hrun.symm.trans hbad
  have h2 : Drone.DRstep 1 (fun _ => 0) ![0, Drone.J] =
      Drone.DRstep 1 (fun _ => 0) ![0, 0] := by
    simpa using hlists
  have h5 := congrFun h2 5
  norm_num [Drone.DRstep, Drone.DRmodel, Drone.J] at h5

/-- **C1, amended.** For every step `i ≥ 1` of a drone dead-reckoning replay
run, `x_hat[i] = x_hat[i-1] + model(x_hat[i-1], u[i])·dt` — the forward-Euler
prediction from the previous estimate using the input of the *current*
(newest) record, with no correction from measurements (the update reads only
the input buffer). -/
theorem drone_dr_euler_recursion (dt : ℝ) (r : Drone.Record)
    (rs : List Drone.Record) (i : ℕ) (h : i + 1 < (r :: rs).length) :
    (Drone.DRrun dt (r :: rs)).getD (i + 1) (fun _ => 0) =
      Drone.DRstep dt
        ((Drone.DRrun dt (r :: rs)).getD i (fun _ => 0))
        (((r :: rs).getD (i + 1) ⟨0, fun _ => 0, fun _ => 0, fun _ => 0⟩).u) := by
  have h' : i < rs.length := by simpa using h
  rw [DRrun_cons]
  simpa using drTail_getD dt rs r.x i h'

/-- **C1, witness.** `drone_dr_euler_recursion` on a concrete two-record run:
`x_hat[1]` is the Euler step from `x_hat[0]` with the second record's
input. -/
theorem drone_dr_euler_recursion_witness :
    (Drone.DRrun 1
        [⟨0, (fun _ => 0), ![0, 0], (fun _ => 0)⟩,
         ⟨1, (fun _ => 0), ![0, Drone.J], (fun _ => 0)⟩]).getD 1 (fun _ => 0) =
      Drone.DRstep 1
        ((Drone.DRrun 1
          [⟨0, (fun _ => 0), ![0, 0], (fun _ => 0)⟩,
           ⟨1, (fun _ => 0), ![0, Drone.J], (fun _ => 0)⟩]).getD 0 (fun _ => 0))
        ![0, Drone.J] :=
  drone_dr_euler_recursion 1
    ⟨0, (fun _ => 0), ![0, 0], (fun _ => 0)⟩
    [⟨1, (fun _ => 0), ![0, Drone.J], (fun _ => 0)⟩] 0 (by norm_num)

/-- **C10, witness.** `tb_kf_estimate_shape` at concrete buffers. -/
theorem tb_kf_estimate_shape_witness :
    Turtlebot.KFupdate [![0, 1, 1]] [Scenario.xr 0.1] [![0, 0, 0]]
        [Scenario.x0] 1 =
      ([Scenario.x0] ++
        [![Scenario.x0 0 + Turtlebot.dt, Turtlebot.phid,
           Turtlebot.KFcorrect (Turtlebot.tail4 Scenario.x0)
             (Turtlebot.tail2 ![0, 1, 1]) (Turtlebot.tail2 ![0, 0, 0]) 1 0,
           Turtlebot.KFcorrect (Turtlebot.tail4 Scenario.x0)
             (Turtlebot.tail2 ![0, 1, 1]) (Turtlebot.tail2 ![0, 0, 0]) 1 1,
           Turtlebot.KFcorrect (Turtlebot.tail4 Scenario.x0)
             (Turtlebot.tail2 ![0, 1, 1]) (Turtlebot.tail2 ![0, 0, 0]) 1 2,
           Turtlebot.KFcorrect (Turtlebot.tail4 Scenario.x0)
             (Turtlebot.tail2 ![0, 1, 1]) (Turtlebot.tail2 ![0, 0, 0]) 1 3]],
       Kalman.covStep Turtlebot.KF_A Turtlebot.KF_C Turtlebot.KF_Q
         Turtlebot.KF_R 1) ∧
    Turtlebot.phid = Real.pi / 4 :=
  tb_kf_estimate_shape [![0, 1, 1]] [Scenario.xr 0.1] [![0, 0, 0]]
    [Scenario.x0] 1 Scenario.x0 (Scenario.xr 0.1) ![0, 1, 1] ![0, 0, 0]
    rfl rfl rfl rfl (by norm_num [Scenario.x0, Scenario.xr])

/-! ### C5: the covariance stays symmetric positive semi-definite -/

lemma transpose_eq_conjTranspose_real {n m : ℕ} (A : Matrix (Fin n) (Fin m) ℝ) :
    Aᴴ = Aᵀ :=
  Matrix.conjTranspose_eq_transpose_of_trivial A

lemma posSemidef_mul_mul_transpose {n m : ℕ} (A : Matrix (Fin m) (Fin n) ℝ)
    {P : Matrix (Fin n) (Fin n) ℝ} (hP : P.PosSemidef) :
    (A * P * Aᵀ).PosSemidef := by
  have := hP.mul_mul_conjTranspose_same A
  rwa [transpose_eq_conjTranspose_real] at this

lemma covStep_posSemidef {n p : ℕ} (A : Matrix (Fin n) (Fin n) ℝ)
    (C : Matrix (Fin p) (Fin n) ℝ) {Q : Matrix (Fin n) (Fin n) ℝ}
    {R : Matrix (Fin p) (Fin p) ℝ} {P : Matrix (Fin n) (Fin n) ℝ}
    (hQ : Q.PosSemidef) (hR : R.PosDef) (hP : P.PosSemidef) :
    (Kalman.covStep A C Q R P).PosSemidef := by
  have hPm : (Kalman.predCov A Q P).PosSemidef :=
    (posSemidef_mul_mul_transpose A hP).add hQ
  set Pm := Kalman.predCov A Q P with hPm_def
  have hS : (C * Pm * Cᵀ + R).PosDef :=
    Matrix.PosDef.posSemidef_add (posSemidef_mul_mul_transpose C hPm) hR
  have hSdet : IsUnit (C * Pm * Cᵀ + R).det := hS.det_pos.ne'.isUnit
  set K := Kalman.gain C R Pm with hK_def
  have hKS : K * (C * Pm * Cᵀ + R) = Pm * Cᵀ := by
    rw [hK_def, Kalman.gain, Matrix.mul_assoc,
      Matrix.nonsing_inv_mul _ hSdet, Matrix.mul_one]
  have hJoseph : Kalman.covStep A C Q R P
      = (1 - K * C) * Pm * (1 - K * C)ᵀ + K * R * Kᵀ := by
    have expand : (1 - K * C) * Pm * (1 - K * C)ᵀ + K * R * Kᵀ
        = (1 - K * C) * Pm + K * (C * Pm * Cᵀ + R) * Kᵀ - Pm * Cᵀ * Kᵀ := by
      simp only [Matrix.transpose_sub, Matrix.transpose_one, Matrix.transpose_mul,
        Matrix.mul_sub, Matrix.sub_mul, Matrix.mul_add, Matrix.add_mul, Matrix.mul_one,
        Matrix.one_mul, Matrix.mul_assoc]
      abel
    rw [show Kalman.covStep A C Q R P = (1 - K * C) * Pm from rfl, expand, hKS,
      add_sub_cancel_right]
  rw [hJoseph]
  exact (posSemidef_mul_mul_transpose _ hPm).add
    (posSemidef_mul_mul_transpose _ hR.posSemidef)

lemma posSemidef_transpose_self {n : ℕ} {P : Matrix (Fin n) (Fin n) ℝ}
    (hP : P.PosSemidef) : Pᵀ = P := by
  rw [← transpose_eq_conjTranspose_real]
  exact hP.isHermitian

lemma covRun_posSemidef {n p : ℕ} {Q : Matrix (Fin n) (Fin n) ℝ}
    {R : Matrix (Fin p) (Fin p) ℝ} (hQ : Q.PosSemidef) (hR : R.PosDef) :
    ∀ (steps : List (Matrix (Fin n) (Fin n) ℝ × Matrix (Fin p) (Fin n) ℝ))
      (P : Matrix (Fin n) (Fin n) ℝ), P.PosSemidef →
      ∀ P' ∈ Kalman.covRun Q R P steps, P'.PosSemidef := by
  intro steps
  induction steps with
  | nil =>
    intro P hP P' hmem
    simp only [Kalman.covRun, List.mem_singleton] at hmem
    exact hmem ▸ hP
  | cons st ss ih =>
    intro P hP P' hmem
    simp only [Kalman.covRun, List.mem_cons] at hmem
    rcases hmem with rfl | hmem
    · exact hP
    · exact ih (Kalman.covStep st.1 st.2 Q R P)
        (covStep_posSemidef st.1 st.2 hQ hR hP) P' hmem

lemma smul_one_posSemidef {n : ℕ} {c : ℝ} (hc : 0 ≤ c) :
    ((c • 1 : Matrix (Fin n) (Fin n) ℝ)).PosSemidef := by
  have hdiag : (c • 1 : Matrix (Fin n) (Fin n) ℝ) = Matrix.diagonal (fun _ => c) := by
    ext i j
    by_cases h : i = j <;>
      simp [h, Matrix.one_apply, Matrix.diagonal_apply, Matrix.smul_apply]
  rw [hdiag]
  exact Matrix.PosSemidef.diagonal fun _ => hc

lemma smul_one_posDef {n : ℕ} {c : ℝ} (hc : 0 < c) :
    ((c • 1 : Matrix (Fin n) (Fin n) ℝ)).PosDef := by
  have hdiag : (c • 1 : Matrix (Fin n) (Fin n) ℝ) = Matrix.diagonal (fun _ => c) := by
    ext i j
    by_cases h : i = j <;>
      simp [h, Matrix.one_apply, Matrix.diagonal_apply, Matrix.smul_apply]
  rw [hdiag]
  exact Matrix.PosDef.diagonal fun _ => hc

lemma tb_KF_Q_posSemidef : Turtlebot.KF_Q.PosSemidef :=
  smul_one_posSemidef (by norm_num)

lemma tb_KF_R_posDef : Turtlebot.KF_R.PosDef := Matrix.PosDef.one

lemma tb_EKF_Q_posSemidef : Turtlebot.EKF_Q.PosSemidef := by
  refine Matrix.PosSemidef.diagonal fun i => ?_
  fin_cases i <;> norm_num

lemma tb_EKF_R_posDef : Turtlebot.EKF_R.PosDef := smul_one_posDef (by norm_num)

lemma drone_EKF_Q_posSemidef : Drone.EKF_Q.PosSemidef :=
  smul_one_posSemidef (by norm_num)

lemma drone_EKF_R_posDef : Drone.EKF_R.PosDef := smul_one_posDef (by norm_num)

/-- **C5.** If `P` is symmetric positive semi-definite before an update step
(and `Q` is PSD, `R` positive definite — true of all the configured noise
matrices), then the covariance `P = (I - K C) P⁻` with `P⁻ = A P Aᵀ + Q` and
`K = P⁻ Cᵀ (C P⁻ Cᵀ + R)⁻¹` produced by the step is again symmetric positive
semi-definite; iterating the recursion with the configured `Q`/`R` of the
turtlebot Kalman filter, the turtlebot EKF and the drone EKF (with arbitrary
per-step Jacobians `A`, `C`), every covariance of the run is symmetric PSD. -/
theorem covariance_posSemidef_invariant :
    (∀ (n p : ℕ) (A : Matrix (Fin n) (Fin n) ℝ) (C : Matrix (Fin p) (Fin n) ℝ)
      (Q : Matrix (Fin n) (Fin n) ℝ) (R : Matrix (Fin p) (Fin p) ℝ)
      (P : Matrix (Fin n) (Fin n) ℝ), P.PosSemidef → Q.PosSemidef → R.PosDef →
      (Kalman.covStep A C Q R P).PosSemidef ∧
        (Kalman.covStep A C Q R P)ᵀ = Kalman.covStep A C Q R P) ∧
    (∀ (k : ℕ) (P : Matrix (Fin 4) (Fin 4) ℝ), P.PosSemidef →
      ∀ P' ∈ Kalman.covRun Turtlebot.KF_Q Turtlebot.KF_R P
        (List.replicate k (Turtlebot.KF_A, Turtlebot.KF_C)),
        P'.PosSemidef ∧ P'ᵀ = P') ∧
    (∀ (steps : List (Matrix (Fin 5) (Fin 5) ℝ × Matrix (Fin 2) (Fin 5) ℝ))
      (P : Matrix (Fin 5) (Fin 5) ℝ), P.PosSemidef →
      ∀ P' ∈ Kalman.covRun Turtlebot.EKF_Q Turtlebot.EKF_R P steps,
        P'.PosSemidef ∧ P'ᵀ = P') ∧
    (∀ (steps : List (Matrix (Fin 6) (Fin 6) ℝ × Matrix (Fin 2) (Fin 6) ℝ))
      (P : Matrix (Fin 6) (Fin 6) ℝ), P.PosSemidef →
      ∀ P' ∈ Kalman.covRun Drone.EKF_Q Drone.EKF_R P steps,
        P'.PosSemidef ∧ P'ᵀ = P') := by
  refine ⟨?_, ?_, ?_, ?_⟩
  · intro n p A C Q R P hP hQ hR
    have h := covStep_posSemidef A C hQ hR hP
    exact ⟨h, posSemidef_transpose_self h⟩
  · intro k P hP P' hmem
    have h := covRun_posSemidef tb_KF_Q_posSemidef tb_KF_R_posDef _ P hP P' hmem
    exact ⟨h, posSemidef_transpose_self h⟩
  · intro steps P hP P' hmem
    have h := covRun_posSemidef tb_EKF_Q_posSemidef tb_EKF_R_posDef steps P hP P' hmem
    exact ⟨h, posSemidef_transpose_self h⟩
  · intro steps P hP P' hmem
    have h := covRun_posSemidef drone_EKF_Q_posSemidef drone_EKF_R_posDef steps P hP P' hmem
    exact ⟨h, posSemidef_transpose_self h⟩

/-- **C5, witness.** One actual turtlebot Kalman-filter covariance update
from the code's initial `P = I`: the produced covariance is symmetric PSD. -/
theorem covariance_posSemidef_invariant_witness :
    (Kalman.covStep Turtlebot.KF_A Turtlebot.KF_C Turtlebot.KF_Q Turtlebot.KF_R
      Turtlebot.KF_P0).PosSemidef ∧
    (Kalman.covStep Turtlebot.KF_A Turtlebot.KF_C Turtlebot.KF_Q Turtlebot.KF_R
      Turtlebot.KF_P0)ᵀ =
      Kalman.covStep Turtlebot.KF_A Turtlebot.KF_C Turtlebot.KF_Q Turtlebot.KF_R
        Turtlebot.KF_P0 :=
  covariance_posSemidef_invariant.2.1 1 Turtlebot.KF_P0 Matrix.PosSemidef.one
    (Kalman.covStep Turtlebot.KF_A Turtlebot.KF_C Turtlebot.KF_Q Turtlebot.KF_R
      Turtlebot.KF_P0)
    (by simp [Kalman.covRun, List.replicate])

/-! ### C2: the expected measurement inside the innovation -/

/-- **C2, counterexample.** The turtlebot EKF's expected measurement is *not*
the nonlinear range-bearing observation: at the state
`[phi, x, y, thl, thr] = [0,0,0,0,0]` the implemented `h` returns
`C·x = [0, 0]`, while the range-bearing model (distance to the landmark
`(0.5, 0.5)` and the bearing) returns `[√(1/2), 0]`. -/
theorem ekf_innovation_counterexample :
    Turtlebot.EKF_h ![0, 0, 0, 0, 0] ≠ Spec.rangeBearing ![0, 0, 0, 0, 0] := by
  intro hEq
  have h0 := congrFun hEq 0
  have hL : Turtlebot.EKF_h ![0, 0, 0, 0, 0] 0 = 0 := by
    simp [Turtlebot.EKF_h, Turtlebot.EKF_C, Matrix.mulVec, Matrix.dotProduct,
      Fin.sum_univ_five]
  have hR : 0 < Spec.rangeBearing ![0, 0, 0, 0, 0] 0 := by
    have : (0:ℝ) < (0.5 - 0) ^ 2 + (0.5 - 0) ^ 2 := by norm_num
    simpa [Spec.rangeBearing] using Real.sqrt_pos.mpr this
  rw [hL] at h0
  rw [← h0] at hR
  exact lt_irrefl 0 hR

/-- **C2, amended.** In every *drone* EKF update step the expression
subtracted from the measurement is the nonlinear observation `h` at the
predicted state (Euclidean distance to the landmark, and the bearing state
component), not `C·x⁻`; the *turtlebot* EKF's `h` is the linear map `C·x`,
so its innovation is the measurement minus `C` times the predicted state. -/
theorem ekf_innovation_expected_measurement :
    (∀ x : Fin 6 → ℝ, Drone.h x 0 = Drone.dist x ∧ Drone.h x 1 = x 2) ∧
    (∀ (dt : ℝ) (u y : Fin 2 → ℝ) (x_hat : List (Fin 6 → ℝ))
      (P : Matrix (Fin 6) (Fin 6) ℝ) (xh : Fin 6 → ℝ),
      x_hat.getLast? = some xh →
      (Drone.EKFupdate dt u y x_hat P).1 = x_hat ++
        [Drone.g dt xh u +
          (Kalman.gain (Drone.approx_C (Drone.g dt xh u)) Drone.EKF_R
            (Kalman.predCov (Drone.approx_A dt xh u) Drone.EKF_Q P)).mulVec
          (y - Drone.h (Drone.g dt xh u))]) ∧
    (∀ x : Fin 5 → ℝ, Turtlebot.EKF_h x = Turtlebot.EKF_C.mulVec x) := by
  refine ⟨fun x => ⟨rfl, rfl⟩, ?_, fun x => rfl⟩
  intro dt u y x_hat P xh h1
  simp only [Drone.EKFupdate, h1]
  rfl

/-- **C2, witness.** `ekf_innovation_expected_measurement` at a concrete
one-element history. -/
theorem ekf_innovation_expected_measurement_witness :
    (Drone.EKFupdate 1 ![0, 0] ![0, 0] [fun _ => 0] 1).1 = [fun _ => 0] ++
      [Drone.g 1 (fun _ => 0) ![0, 0] +
        (Kalman.gain (Drone.approx_C (Drone.g 1 (fun _ => 0) ![0, 0])) Drone.EKF_R
          (Kalman.predCov (Drone.approx_A 1 (fun _ => 0) ![0, 0]) Drone.EKF_Q 1)).mulVec
        (![0, 0] - Drone.h (Drone.g 1 (fun _ => 0) ![0, 0]))] :=
  ekf_innovation_expected_measurement.2.1 1 ![0, 0] ![0, 0] [fun _ => 0] 1
    (fun _ => 0) rfl

/-- **C4, witness.** `jacobian_observation_range_bearing` at the zero state:
the range row vanishes at a velocity column and the bearing row vanishes at
the position column. -/
theorem jacobian_observation_range_bearing_witness :
    Drone.approx_C (fun _ => 0) 0 3 = 0 ∧ Drone.approx_C (fun _ => 0) 1 0 = 0 :=
  ⟨(jacobian_observation_range_bearing.1 (fun _ => 0)).2.2.2.1 3 (by decide),
   (jacobian_observation_range_bearing.1 (fun _ => 0)).2.2.2.2 0 (by decide)⟩
